import Mathlib

/-!
Verification of the dhcplb DHCP load balancer (facebookincubator/dhcplb).

This file shallowly embeds the parts of the Go source that the verified
claims are about, and proves (or refutes) each claim against that
embedding.  Byte strings are modelled as `List Nat` (each element a byte
value), Go strings manipulated structurally are modelled as `List Char`,
machine arithmetic is `Nat`/`Int` with explicit `% 2^w` where overflow
matters, and fallible Go functions return `Except`/`Option`.  Go code that
can hit a runtime panic (out-of-range index or slice) is modelled with the
`GoRes` result type whose `crash` constructor stands for the panic.
-/

namespace Dhcplb

instance {ε α : Type _} [DecidableEq ε] [DecidableEq α] : DecidableEq (Except ε α) :=
  fun a b =>
    match a, b with
    | .ok x, .ok y => if h : x = y then .isTrue (by rw [h]) else .isFalse (by simp [h])
    | .error e, .error f => if h : e = f then .isTrue (by rw [h]) else .isFalse (by simp [h])
    | .ok _, .error _ => .isFalse (by simp)
    | .error _, .ok _ => .isFalse (by simp)

/-- FNV-1a 32-bit hash as computed by Go `hash/fnv` `New32a` + `Write`:
offset basis 2166136261; for every byte `b`: `h = (h XOR b) * 16777619`
truncated to 32 bits (source: `hash/fnv`, used by `lib/modulo.go` and
`lib/rr.go`). -/
def fnv1a32 (data : List Nat) : Nat :=
  data.foldl (fun h b => (h ^^^ b) * 16777619 % 4294967296) 2166136261

/-- `DHCPServer` from `lib/server.go`: hostname, IP address (a `net.IP`, `none`
standing for Go `nil`), port and RC flag.  The UDP connection and its mutex are
connection state with no bearing on the verified claims. -/
structure DHCPServer where
  Hostname : String := ""
  Address : Option (List Nat) := none
  Port : Int := 0
  IsRC : Bool := false
deriving DecidableEq, Repr

/-- `NewDHCPServer` from `lib/server.go`. -/
def NewDHCPServer (hostname : String) (ip : Option (List Nat)) (port : Int) : DHCPServer :=
  { Hostname := hostname, Address := ip, Port := port }

/-- `DHCPMessage` from `lib/dhcp_structs.go`: the routing fingerprint of a
request.  The `Peer` field (a socket address) is immaterial to the claims. -/
structure DHCPMessage where
  XID : List Nat := []
  ClientID : List Nat := []
  Mac : List Nat := []
  NetBoot : Bool := false
  Serial : String := ""
deriving DecidableEq, Repr

/-- State of the sticky (`xid`) balancer, `modulo` struct from `lib/modulo.go`
(the `sync.RWMutex` is omitted: selection is a pure read). -/
structure Modulo where
  stable : List DHCPServer := []
  rc : List DHCPServer := []
  rcRatio : Nat := 0
deriving DecidableEq, Repr

/-- `modulo.selectServerFromList` from `lib/modulo.go`: empty list is an
error, otherwise index the list by the FNV-1a hash of the client id modulo the
list length.  (Any Go slice length fits in `uint32`, so `hash % uint32(len)` is
`hash % len`.) -/
def Modulo.selectServerFromList (list : List DHCPServer) (message : DHCPMessage) :
    Except String DHCPServer :=
  if h : list.length = 0 then .error "Server list is empty"
  else .ok (list.get ⟨fnv1a32 message.ClientID % list.length,
    Nat.mod_lt _ (Nat.pos_of_ne_zero h)⟩)

/-- `modulo.selectRatioBasedDhcpServer` from `lib/modulo.go`: hash the client
id to 0..99 and draw from the RC pool when below `rcRatio`, else stable. -/
def Modulo.selectRatioBasedDhcpServer (m : Modulo) (message : DHCPMessage) :
    Except String DHCPServer :=
  if fnv1a32 message.ClientID % 100 < m.rcRatio then
    Modulo.selectServerFromList m.rc message
  else
    Modulo.selectServerFromList m.stable message

/-- State of the round-robin balancer, `roundRobin` struct from `lib/rr.go`:
two pools, the RC ratio and the three cursors. -/
structure RoundRobin where
  stable : List DHCPServer := []
  rc : List DHCPServer := []
  rcRatio : Nat := 0
  iterStable : Nat := 0
  iterRC : Nat := 0
  iterList : Nat := 0
deriving DecidableEq, Repr

/-- `roundRobin.getHash` from `lib/rr.go` (FNV-1a 32 bit). -/
def RoundRobin.getHash (token : List Nat) : Nat := fnv1a32 token

/-- `roundRobin.selectServerFromList` from `lib/rr.go`: take the `iterList`
cursor modulo the current list length, return that entry and advance the
cursor.  Returns the chosen server (or the empty-list error) together with the
updated balancer state. -/
def RoundRobin.selectServerFromList (rr : RoundRobin) (list : List DHCPServer)
    (_message : DHCPMessage) : Except String DHCPServer × RoundRobin :=
  if h : list.length = 0 then (.error "Server list is empty", rr)
  else
    let i := rr.iterList % list.length
    (.ok (list.get ⟨i, Nat.mod_lt _ (Nat.pos_of_ne_zero h)⟩),
      { rr with iterList := i + 1 })

/-- `roundRobin.selectRatioBasedDhcpServer` from `lib/rr.go`: sticky ratio
split by client-id hash; the chosen pool cursor is copied into `iterList` and
advanced, then `selectServerFromList` runs on that pool. -/
def RoundRobin.selectRatioBasedDhcpServer (rr : RoundRobin) (message : DHCPMessage) :
    Except String DHCPServer × RoundRobin :=
  let hash := RoundRobin.getHash message.ClientID
  if hash % 100 < rr.rcRatio then
    RoundRobin.selectServerFromList
      { rr with iterList := rr.iterRC, iterRC := rr.iterRC + 1 } rr.rc message
  else
    RoundRobin.selectServerFromList
      { rr with iterList := rr.iterStable, iterStable := rr.iterStable + 1 } rr.stable message

/-- The four ten-byte client ids of `Test_Hash` in `lib/modulo_test.go`; their
FNV-1a hashes are 0,1,2,3 modulo 4. -/
def testClientIDs : List (List Nat) :=
  [[0xf6, 0x85, 0x63, 0x3, 0x11, 0x80, 0x72, 0x97, 0x23, 0xa1],
   [0x8c, 0x41, 0x34, 0xe1, 0x9c, 0xd, 0xfc, 0xe5, 0x41, 0x4b],
   [0x54, 0xc9, 0xeb, 0x57, 0xa, 0x57, 0x14, 0x43, 0x2b, 0x19],
   [0x54, 0xc5, 0x89, 0x66, 0xb2, 0xdc, 0x39, 0xf7, 0x8f, 0xa5]]

/-- The four servers of `Test_Hash`, distinguished by their port. -/
def testServers : List DHCPServer :=
  [{ Port := 0 }, { Port := 1 }, { Port := 2 }, { Port := 3 }]

/-- Result of a Go function that can return a value, return an error, or hit
a runtime panic (out-of-range index or slice).  `crash` stands for the
panic. -/
inductive GoRes (α : Type) where
  | ok : α → GoRes α
  | err : String → GoRes α
  | crash : GoRes α
deriving DecidableEq, Repr

/-- Go `binary.BigEndian.Uint16(p[i:i+2])`: `none` when an index is out of
range (a panic in Go). -/
def readU16 (p : List Nat) (i : Nat) : Option Nat :=
  match p[i]?, p[i + 1]? with
  | some a, some b => some (256 * a + b)
  | _, _ => none

/-- A `Packet6` (`lib/packet6.go`) is the raw bytes of a DHCPv6 message. -/
def Packet6 := List Nat

/-- Message-type byte of a Packet6 (`Packet6.Type` in `lib/packet6.go`):
error on the empty packet, else the first byte.  `RelayForw = 12`,
`RelayRepl = 13` per the `MessageType` enum. -/
def Packet6.msgType (p : List Nat) : Except String Nat :=
  match p.head? with
  | none => .error "Packet is empty, cannot get message type"
  | some t => .ok t

/-- `Packet6.Hops` from `lib/packet6.go`: error unless the type byte is
RelayForw (12) or RelayRepl (13); then the second byte — reading it panics
(`crash`) when the packet is a single byte. -/
def Packet6.hops (p : List Nat) : GoRes Nat :=
  match p.head? with
  | some t =>
    if t = 12 ∨ t = 13 then
      match p[1]? with
      | some h => .ok h
      | none => .crash
    else .err "Not a RelayForw or RelayRepl, does not have hop count"
  | none => .err "Not a RelayForw or RelayRepl, does not have hop count"

/-- `Packet6.PeerAddr` from `lib/packet6.go`: error unless relay-typed; then
the slice `p[18:34]` — slicing panics (`crash`) when the packet is shorter
than 34 bytes. -/
def Packet6.peerAddr (p : List Nat) : GoRes (List Nat) :=
  match p.head? with
  | some t =>
    if t = 12 ∨ t = 13 then
      if 34 ≤ p.length then .ok ((p.drop 18).take 16)
      else .crash
    else .err "Not a RelayForw or RelayRepl, does not have peer-address"
  | none => .err "Not a RelayForw or RelayRepl, does not have peer-address"

/-- Option-scan loop of `Packet6.getOption` from `lib/packet6.go`: while
`index+4 < len(p)`, read the two-byte option type and length at `index`; on a
type match return `p[index+4 : index+4+len]` after the two explicit bounds
checks of the source; otherwise skip `4+len` bytes ahead.  Each unguarded
read/slice of the source is modelled as `crash` when out of range. -/
def Packet6.getOptionLoop (p : List Nat) (option : Nat) (index : Nat) : GoRes (List Nat) :=
  if hguard : index + 4 < p.length then
    match readU16 p index, readU16 p (index + 2) with
    | some optionType, some optionLen =>
      if optionType = option then
        if p.length ≤ index + 4 then
          .err "Found option, but start was out-of-bounds"
        else if p.length < index + 4 + optionLen then
          .err "Found option, but end was out-of-bounds"
        else .ok ((p.drop (index + 4)).take optionLen)
      else Packet6.getOptionLoop p option (index + 4 + optionLen)
    | _, _ => .crash
  else .err "Failed to find option"
termination_by p.length - index
decreasing_by
  exact Nat.sub_lt_sub_left (Nat.lt_of_le_of_lt (Nat.le_add_right _ 4) hguard)
    (by omega)

/-- `Packet6.getOption` from `lib/packet6.go`: packets shorter than 4 bytes
are rejected; options start at byte 34 of a relay message (type 12 or 13) and
at byte 4 of a client/server message. -/
def Packet6.getOption (p : List Nat) (option : Nat) : GoRes (List Nat) :=
  if p.length < 4 then
    .err "Packet is less than 4 bytes long, cannot get option"
  else
    Packet6.getOptionLoop p option
      (if p.head? = some 12 ∨ p.head? = some 13 then 34 else 4)

/-- The relay-forward buffer built by `Packet6.Encapsulate`: type byte 12, the
hop byte, 16 zero bytes of link-address, the 16-byte peer-address region
(`copy(new[18:34], peer)` copies `min 16 (len peer)` bytes onto zeroes), the
RelayMessage option code `9` as big-endian 16 bits, `uint16(len p)` as
big-endian 16 bits, then the received bytes `p`. -/
def Packet6.encBytes (hop : Nat) (peer p : List Nat) : List Nat :=
  12 :: hop ::
    (List.replicate 16 0 ++ (peer.take 16 ++ List.replicate (16 - peer.length) 0) ++
      0 :: 9 :: (p.length % 65536) / 256 :: p.length % 256 :: p)

/-- `Packet6.Encapsulate` from `lib/packet6.go`: wrap `p` in a fresh
relay-forward message; the hop byte is `p`'s hop count plus one (a byte, so
mod 256) when `p.Hops()` succeeds and 0 when it errors; `none` models the
panic that `p.Hops()` hits on a 1-byte relay-typed packet. -/
def Packet6.encapsulate (p peer : List Nat) : Option (List Nat) :=
  match Packet6.hops p with
  | .crash => none
  | .ok h => some (Packet6.encBytes ((h + 1) % 256) peer p)
  | .err _ => some (Packet6.encBytes 0 peer p)

/-- `Packet6.Unwind` from `lib/packet6.go`: strip one relay layer, returning
the RelayMessage option bytes and the outer peer-address. -/
def Packet6.unwind (p : List Nat) : GoRes (List Nat × List Nat) :=
  match Packet6.peerAddr p with
  | .err e => .err e
  | .crash => .crash
  | .ok peer =>
    match Packet6.getOption p 9 with
    | .ok relayMsg => .ok (relayMsg, peer)
    | .err _ => .err "Failed to extract RelayMessage option"
    | .crash => .crash

/-- Model of the external `golang.org/x/time/rate` limiter (its code is not
part of this repository): an abstract state type with an `Allow` step that
returns the admission decision and the successor state, a `NewLimiter`
constructor taking rate and burst, and the infinite limiter
`NewLimiter(rate.Inf, 1)`.  The throttle theorems hold for every such
model. -/
structure LimiterModel where
  L : Type
  allow : L → Bool × L
  newLimiter : Int → Int → L
  inf : L

/-- `hashicorp/golang-lru` `Get` (external library): find the key, return its
value and the remaining entries; the hit entry moves to the front of the
recency list.  `none` on a miss. -/
def lruGet {V : Type} (l : List (String × V)) (key : String) :
    Option (V × List (String × V)) :=
  match l.find? (fun e => e.1 = key) with
  | none => none
  | some e => some (e.2, l.eraseP (fun x => x.1 = key))

/-- `hashicorp/golang-lru` `Add` (external library): insert or update the key
at the front of the recency list and evict from the tail beyond the cache
capacity. -/
def lruAdd {V : Type} (capacity : Nat) (l : List (String × V)) (key : String)
    (v : V) : List (String × V) :=
  ((key, v) :: l.eraseP (fun x => x.1 = key)).take capacity

/-- `throttleImpl` from `lib/throttle.go`: the LRU of per-key buckets and the
global admission limiter (the mutex is serialization only). -/
structure throttleImpl (M : LimiterModel) where
  lru : List (String × M.L)
  capacity : Nat
  maxRatePerItem : Int
  bucketSize : Int
  cacheLimiter : M.L
  cacheRate : Int

/-- The `Throttle` interface value produced by `NewThrottle`: either the
`dummyThtolleImp` that allows everything or a `throttleImpl`. -/
inductive Throttle (M : LimiterModel) where
  | dummy : Throttle M
  | impl : throttleImpl M → Throttle M

/-- The admission-exceeded reason of `throttleImpl.OK` (source:
`"Cache invalidation is too fast (max: %d item/sec) - throttling"`). -/
def admissionExceededMsg : String := "Cache invalidation is too fast - throttling"

/-- The per-key reason of `throttleImpl.OK` (source:
`"Request rate is too high for %v (max: %d req/sec) - throttling"`). -/
def ratePerKeyMsg : String := "Request rate is too high - throttling"

/-- `Throttle.OK` from `lib/throttle.go` (`dummyThtolleImp.OK` and
`throttleImpl.OK`): look the key up in the LRU; on a hit consume from its
bucket; on a miss consult the admission limiter and only on admission create
a fresh bucket, insert it and consume from it.  Returns `(ok, reason)` and
the successor throttle state. -/
def Throttle.OK {M : LimiterModel} : Throttle M → String →
    (Bool × Option String) × Throttle M
  | .dummy, _ => ((true, none), .dummy)
  | .impl c, key =>
    match lruGet c.lru key with
    | none =>
      let adm := M.allow c.cacheLimiter
      if adm.1 then
        let fresh := M.newLimiter c.maxRatePerItem c.bucketSize
        let consumed := M.allow fresh
        ((consumed.1, none),
          .impl { c with cacheLimiter := adm.2,
                         lru := lruAdd c.capacity c.lru key consumed.2 })
      else
        ((false, some admissionExceededMsg), .impl { c with cacheLimiter := adm.2 })
    | some (lim, rest) =>
      let consumed := M.allow lim
      let c2 := { c with lru := (key, consumed.2) :: rest }
      if consumed.1 then ((true, none), .impl c2)
      else ((false, some ratePerKeyMsg), .impl c2)

/-- `NewThrottle` from `lib/throttle.go`: non-positive `MaxRatePerItem`
disables throttling entirely (the dummy implementation, no state);
`lru.New` rejects a non-positive capacity; non-positive `CacheRate` makes
admission unlimited (`rate.Inf`). -/
def NewThrottle (M : LimiterModel) (Capacity CacheRate MaxRatePerItem : Int) :
    Except String (Throttle M) :=
  if MaxRatePerItem ≤ 0 then .ok .dummy
  else if Capacity ≤ 0 then .error "Must provide a positive size"
  else .ok (.impl
    { lru := []
      capacity := Capacity.toNat
      maxRatePerItem := MaxRatePerItem
      bucketSize := MaxRatePerItem
      cacheLimiter := if CacheRate ≤ 0 then M.inf else M.newLimiter CacheRate CacheRate
      cacheRate := CacheRate })

/-- A concrete limiter model used to exercise the throttle theorems: the
state is a token count, `Allow` consumes one token when positive. -/
@[reducible] def natLimiterModel : LimiterModel :=
  { L := Int
    allow := fun n => (decide (0 < n), n - 1)
    newLimiter := fun r _ => r
    inf := 1 }

/-- A concrete throttle state: one key `"k"` in the LRU with an exhausted
bucket, and an exhausted admission limiter. -/
@[reducible] def throttleWitnessState : throttleImpl natLimiterModel :=
  { lru := [("k", (0 : Int))]
    capacity := 1
    maxRatePerItem := 5
    bucketSize := 5
    cacheLimiter := 0
    cacheRate := 3 }

/-- Lowercase hex digit, as produced by Go `encoding/hex`. -/
def hexDigit (n : Nat) : Char := "0123456789abcdef".data.getD n '0'

/-- The two lowercase hex digits of one byte. -/
def byteHex (b : Nat) : List Char := [hexDigit (b % 256 / 16), hexDigit (b % 16)]

/-- `FormatID` from `lib/handler.go`: empty input gives the empty string;
otherwise each byte as two lowercase hex digits, bytes separated by a colon
(the source writes hex pairs at stride 3 into a `3*len-1` byte buffer, which
is exactly this interleaving). -/
def FormatID (buf : List Nat) : String :=
  match buf with
  | [] => ""
  | _ => String.mk (List.intercalate [':'] (buf.map byteHex))

/-- `Override` from `lib/config.go`: host, tier and optional expiration
timestamp, all strings. -/
structure Override where
  Host : String := ""
  Tier : String := ""
  Expiration : String := ""
deriving DecidableEq, Repr

/-- The slice of `Config` (`lib/config.go`) that override handling reads: the
protocol version, the overrides map (modelled as an association list keyed by
formatted MAC), the `HostSourcer.GetServersFromTier` method and the
`Algorithm.SelectServerFromList` method of the configured balancer. -/
structure Config where
  Version : Nat := 4
  Overrides : List (String × Override) := []
  HostSourcerGetServersFromTier : String → Except String (List DHCPServer) :=
    fun _ => .ok []
  AlgorithmSelectServerFromList : List DHCPServer → DHCPMessage →
      Except String DHCPServer :=
    Modulo.selectServerFromList

/-- `handleHostOverride` from `lib/handler.go`, with `net.ParseIP` (standard
library) abstracted as a parameter: an unparseable host is an error,
otherwise a fresh server on port 67 (v4) or 547 (v6). -/
def handleHostOverride (parseIP : String → Option (List Nat)) (config : Config)
    (host : String) : Except String DHCPServer :=
  match parseIP host with
  | none => .error "Failed to get IP for overridden host"
  | some addr =>
    .ok (NewDHCPServer host (some addr) (if config.Version = 6 then 547 else 67))

/-- `handleTierOverride` from `lib/handler.go`: ask the host sourcer for the
tier, fail on error or an empty tier, else delegate to the balancer's
`SelectServerFromList`. -/
def handleTierOverride (config : Config) (tier : String) (message : DHCPMessage) :
    Except String DHCPServer :=
  match config.HostSourcerGetServersFromTier tier with
  | .error _ => .error "Failed to get servers from tier"
  | .ok servers =>
    if servers.length = 0 then .error "Sourcer returned no servers"
    else
      match config.AlgorithmSelectServerFromList servers message with
      | .error _ => .error "Failed to select server"
      | .ok server => .ok server

/-- The host-then-tier tail of `handleOverride` (`lib/handler.go`): host
takes precedence over tier; an entry with neither falls through.  The
`server.connect()` call and the `FreeConnTimeout` disconnect timer are socket
side effects that do not change the returned value. -/
def overrideHostTier (parseIP : String → Option (List Nat)) (config : Config)
    (ovr : Override) (message : DHCPMessage) : Except String (Option DHCPServer) :=
  if ovr.Host.length > 0 then
    match handleHostOverride parseIP config ovr.Host with
    | .error e => .error e
    | .ok server => .ok (some server)
  else if ovr.Tier.length > 0 then
    match handleTierOverride config ovr.Tier message with
    | .error e => .error e
    | .ok server => .ok (some server)
  else .ok none

/-- `handleOverride` from `lib/handler.go`, with `time.Parse` of the
`"2006/01/02 15:04 -0700"` format and `time.Now` abstracted as parameters
(`parseTime` returns the parsed timestamp or `none` on a parse error; Go
`time.Time.After` is `>` on timestamps).  A miss, an unparseable expiration
and an expired entry all yield no server and no error. -/
def handleOverride (parseTime : String → Option Int) (now : Int)
    (parseIP : String → Option (List Nat)) (config : Config)
    (message : DHCPMessage) : Except String (Option DHCPServer) :=
  match config.Overrides.lookup (FormatID message.Mac) with
  | none => .ok none
  | some ovr =>
    if ovr.Expiration ≠ "" then
      match parseTime ovr.Expiration with
      | none => .ok none
      | some expiration =>
        if now > expiration then .ok none
        else overrideHostTier parseIP config ovr message
    else overrideHostTier parseIP config ovr message

/-- The concrete expired override of the spec: MAC `aa:bb:cc:dd:ee:ff`, host
`10.0.0.1`, expiration `2000/01/01 00:00 +0000`. -/
def overrideWitnessConfig : Config :=
  { Version := 4
    Overrides := [("aa:bb:cc:dd:ee:ff",
      { Host := "10.0.0.1", Expiration := "2000/01/01 00:00 +0000" })] }

/-- A concrete `time.Parse` model knowing only the witness timestamp (Unix
time 946684800 = 2000-01-01T00:00Z). -/
def parseTimeWitness (s : String) : Option Int :=
  if s = "2000/01/01 00:00 +0000" then some 946684800 else none

/-- Go `strings.Split` on a single-character separator, over char lists:
always at least one (possibly empty) field. -/
def splitOnChar : List Char → Char → List (List Char)
  | [], _ => [[]]
  | x :: xs, c =>
    match splitOnChar xs c with
    | [] => [[]]
    | y :: ys => if x = c then [] :: y :: ys else (x :: y) :: ys

/-- Go `bytes.SplitN(f, sep, 2)` reduced to its outcome: split at the first
occurrence of the separator, `none` when the separator does not occur (the
`len(p) != 2` case of the source). -/
def cutChar : List Char → Char → Option (List Char × List Char)
  | [], _ => none
  | x :: xs, c =>
    if x = c then some ([], xs)
    else
      match cutChar xs c with
      | none => none
      | some (a, b) => some (x :: a, b)

/-- Go `strings.LastIndex` on a single character: index of the last
occurrence, `none` standing for the Go result `-1`. -/
def lastIndexOf : List Char → Char → Option Nat
  | [], _ => none
  | x :: xs, c =>
    match lastIndexOf xs c with
    | some i => some (i + 1)
    | none => if x = c then some 0 else none

/-- `VendorData` from `lib/dhcp_structs.go`: vendor name, model and serial
(modelled as char lists, Go's byte strings). -/
structure VendorData where
  VendorName : List Char := []
  Model : List Char := []
  Serial : List Char := []
deriving DecidableEq, Repr

/-- One entry of the Vendor-Identifying Vendor Class option (option 124):
enterprise number and opaque data. -/
structure VIVCIdentifier where
  EntID : Nat := 0
  Data : List Char := []
deriving DecidableEq, Repr

/-- The three option accessors of `insomniacslk/dhcp` `dhcpv4.DHCPv4` that
the vendor parsing uses (`GetOneOption` of Class Identifier 60, Host Name 12
and VIVC 124): `none` when the option is absent. -/
structure DHCPv4Packet where
  ClassIdentifier : Option (List Char) := none
  HostName : Option (List Char) := none
  VIVCIdentifiers : Option (List VIVCIdentifier) := none
deriving DecidableEq, Repr

/-- `parseV4VendorClass` from `lib/handler.go`: dispatch on the vendor-class
prefix.  `Arista;`: semicolon split, at least 4 fields, fields 0/1/3.
`ZPESystems:`: colon split, at least 3 fields, fields 0/1/2.  `Juniper-`:
strip the prefix, vendor is `Juniper`; the last `-` separates model from
serial; with no `-` left the whole remainder is the model and the serial
comes from the Host Name option when present.  Anything else leaves the
data untouched.  Returns the updated VendorData and the error (the Go
function mutates `vd` through a pointer and returns `error`). -/
def parseV4VendorClass (vd : VendorData) (packet : DHCPv4Packet) :
    VendorData × Option String :=
  match packet.ClassIdentifier with
  | none => (vd, none)
  | some vc =>
    if vc.take 7 = "Arista;".data then
      let p := splitOnChar vc ';'
      if p.length < 4 then (vd, some "malformed vendor option")
      else ({ vd with VendorName := p.getD 0 [], Model := p.getD 1 [],
                      Serial := p.getD 3 [] }, none)
    else if vc.take 11 = "ZPESystems:".data then
      let p := splitOnChar vc ':'
      if p.length < 3 then (vd, some "malformed vendor option")
      else ({ vd with VendorName := p.getD 0 [], Model := p.getD 1 [],
                      Serial := p.getD 2 [] }, none)
    else if vc.take 8 = "Juniper-".data then
      let rest := vc.drop 8
      match lastIndexOf rest '-' with
      | none =>
        match packet.HostName with
        | some h =>
          ({ vd with VendorName := "Juniper".data, Model := rest, Serial := h }, none)
        | none => ({ vd with VendorName := "Juniper".data, Model := rest }, none)
      | some sepIdx =>
        ({ vd with VendorName := "Juniper".data, Model := rest.take sepIdx,
                   Serial := rest.drop (sepIdx + 1) }, none)
    else (vd, none)

/-- The `KEY:VALUE` field loop of `parseV4VIVC`: a field without a colon is
the malformed-option error (fields already consumed keep their effect);
`SN` sets the serial, `PID` the model. -/
def vivcFields : VendorData → List (List Char) → VendorData × Option String
  | vd, [] => (vd, none)
  | vd, f :: rest =>
    match cutChar f ':' with
    | none => (vd, some "malformed vendor option")
    | some (k, v) =>
      if k = "SN".data then vivcFields { vd with Serial := v } rest
      else if k = "PID".data then vivcFields { vd with Model := v } rest
      else vivcFields vd rest

/-- The identifier loop of `parseV4VIVC`: entries with the Cisco enterprise
number 0x9 set the vendor name and then parse the `;`-delimited fields,
propagating the first field error. -/
def vivcIdentifiers : VendorData → List VIVCIdentifier → VendorData × Option String
  | vd, [] => (vd, none)
  | vd, ident :: rest =>
    if ident.EntID = 9 then
      match vivcFields { vd with VendorName := "Cisco Systems".data }
          (splitOnChar ident.Data ';') with
      | (vd3, some e) => (vd3, some e)
      | (vd3, none) => vivcIdentifiers vd3 rest
    else vivcIdentifiers vd rest

/-- `parseV4VIVC` from `lib/handler.go`: nothing to do when option 124 is
absent, else run the identifier loop. -/
def parseV4VIVC (vd : VendorData) (packet : DHCPv4Packet) :
    VendorData × Option String :=
  match packet.VIVCIdentifiers with
  | none => (vd, none)
  | some ids => vivcIdentifiers vd ids

/-- `VendorDataV4` from `lib/handler.go`: run both vendor parsers over a
fresh VendorData; their errors are only logged, the (possibly partially
filled) data is returned regardless. -/
def VendorDataV4 (packet : DHCPv4Packet) : VendorData :=
  (parseV4VIVC (parseV4VendorClass {} packet).1 packet).1

/-- Go `strconv.ParseInt(s, 10, 32)`: optional sign, at least one decimal
digit, value within the int32 range; `none` on any parse or range error. -/
def parseInt32 (l : List Char) : Option Int :=
  let signAndDigits : Int × List Char :=
    match l with
    | '+' :: ds => (1, ds)
    | '-' :: ds => (-1, ds)
    | ds => (1, ds)
  let sign := signAndDigits.1
  let digits := signAndDigits.2
  if digits = [] then none
  else if digits.all (fun c => decide ('0' ≤ c) && decide (c ≤ '9')) then
    let v : Int :=
      sign * ((digits.foldl (fun acc c => acc * 10 + (c.toNat - '0'.toNat)) 0 : Nat) : Int)
    if v < -(2 ^ 31) ∨ 2 ^ 31 - 1 < v then none else some v
  else none

/-- The version-matching resolution loop of `FileSourcer.GetServersFromTier`
(`lib/file.go`): scan the `LookupHost` results for the first parseable
address passing `To4` (version 4) or `To16` (version 6); `none` (a nil IP)
when no candidate matches. -/
def findResolved (version : Nat) (parseIP : String → Option (List Nat))
    (to4ok to16ok : List Nat → Bool) : List String → Option (List Nat)
  | [] => none
  | s :: rest =>
    match parseIP s with
    | some addr =>
      if version = 4 ∧ to4ok addr then some addr
      else if version = 6 ∧ to16ok addr then some addr
      else findResolved version parseIP to4ok to16ok rest
    | none => findResolved version parseIP to4ok to16ok rest

/-- `FileSourcer.GetServersFromTier` from `lib/file.go`, its file reading
abstracted to the list of scanned lines and the `net` stdlib calls
(`ParseIP`, `LookupHost`, `To4`/`To16` nil-checks) to parameters.  Each line
is split on `:`; a single token means no port suffix and the port is set to
67 (with no version check); otherwise the second token must parse as an
int32 port or the line is skipped.  A hostname that is not an IP literal is
resolved, a resolution error skips the line, and the first
version-matching address (or nil) becomes the server address. -/
def GetServersFromTier (version : Nat) (parseIP : String → Option (List Nat))
    (lookupHost : String → Option (List String)) (to4ok to16ok : List Nat → Bool)
    (lines : List String) : List DHCPServer :=
  lines.filterMap (fun line =>
    match splitOnChar line.data ':' with
    | [] => none
    | t0 :: restTokens =>
      let port? : Option Int :=
        match restTokens with
        | [] => some 67
        | t1 :: _ => parseInt32 t1
      match port? with
      | none => none
      | some port =>
        let hostname := String.mk t0
        match parseIP hostname with
        | some addr => some (NewDHCPServer hostname (some addr) port)
        | none =>
          match lookupHost hostname with
          | none => none
          | some ips =>
            some (NewDHCPServer hostname
              (findResolved version parseIP to4ok to16ok ips) port))

end Dhcplb

namespace Dhcplb

/-- Any server the sticky balancer picks out of a list is a member of that
list (it is `list.get` at the hash index). -/
theorem modulo_selectServerFromList_mem {L : List DHCPServer} {m : DHCPMessage}
    {s : DHCPServer} (h : Modulo.selectServerFromList L m = .ok s) : s ∈ L := by
  unfold Modulo.selectServerFromList at h
  split at h
  · exact absurd h (by simp)
  · exact (Except.ok.inj h) ▸ List.get_mem _ _ _

/-- Any server the round-robin balancer picks out of a list is a member of
that list. -/
theorem rr_selectServerFromList_mem {rr rr2 : RoundRobin}
    {L : List DHCPServer} {m : DHCPMessage} {s : DHCPServer}
    (h : RoundRobin.selectServerFromList rr L m = (.ok s, rr2)) : s ∈ L := by
  unfold RoundRobin.selectServerFromList at h
  split at h
  · exact absurd (congrArg Prod.fst h) (by simp)
  · exact (Except.ok.inj (congrArg Prod.fst h)) ▸ List.get_mem _ _ _

/-- C1: for every server list L and message m, the sticky (`xid`) balancer's
`selectServerFromList` returns `L[fnv1a32(m.ClientID) mod |L|]` (the index is
in range exactly when L is non-empty), and the empty-list error (no server)
otherwise. -/
theorem claim1_sticky_selectServerFromList (L : List DHCPServer) (m : DHCPMessage) :
    Modulo.selectServerFromList L m =
      match L.get? (fnv1a32 m.ClientID % L.length) with
      | some s => .ok s
      | none => .error "Server list is empty" := by
  unfold Modulo.selectServerFromList
  split
  · rename_i h
    rw [List.length_eq_zero.mp h]
    rfl
  · rename_i h
    rw [List.get?_eq_get (Nat.mod_lt _ (Nat.pos_of_ne_zero h))]

/-- C3: both balancers draw from the RC pool exactly when
`fnv1a32(m.ClientID) mod 100 < rcRatio`, and from the stable pool otherwise.
For the sticky balancer the selection is literally `selectServerFromList` on
the chosen pool; for both, a successfully returned server is a member of the
chosen pool. -/
theorem claim3_ratio_split (st : Modulo) (rr : RoundRobin) (m : DHCPMessage) :
    (fnv1a32 m.ClientID % 100 < st.rcRatio →
      Modulo.selectRatioBasedDhcpServer st m = Modulo.selectServerFromList st.rc m ∧
      ∀ s, Modulo.selectRatioBasedDhcpServer st m = .ok s → s ∈ st.rc) ∧
    (¬ fnv1a32 m.ClientID % 100 < st.rcRatio →
      Modulo.selectRatioBasedDhcpServer st m = Modulo.selectServerFromList st.stable m ∧
      ∀ s, Modulo.selectRatioBasedDhcpServer st m = .ok s → s ∈ st.stable) ∧
    (fnv1a32 m.ClientID % 100 < rr.rcRatio →
      ∀ s rr2, RoundRobin.selectRatioBasedDhcpServer rr m = (.ok s, rr2) → s ∈ rr.rc) ∧
    (¬ fnv1a32 m.ClientID % 100 < rr.rcRatio →
      ∀ s rr2, RoundRobin.selectRatioBasedDhcpServer rr m = (.ok s, rr2) → s ∈ rr.stable) := by
  refine ⟨fun h => ⟨?_, ?_⟩, fun h => ⟨?_, ?_⟩, fun h s rr2 hsel => ?_, fun h s rr2 hsel => ?_⟩
  · unfold Modulo.selectRatioBasedDhcpServer
    rw [if_pos h]
  · intro s hs
    unfold Modulo.selectRatioBasedDhcpServer at hs
    rw [if_pos h] at hs
    exact modulo_selectServerFromList_mem hs
  · unfold Modulo.selectRatioBasedDhcpServer
    rw [if_neg h]
  · intro s hs
    unfold Modulo.selectRatioBasedDhcpServer at hs
    rw [if_neg h] at hs
    exact modulo_selectServerFromList_mem hs
  · simp only [RoundRobin.selectRatioBasedDhcpServer, RoundRobin.getHash, if_pos h] at hsel
    exact rr_selectServerFromList_mem hsel
  · simp only [RoundRobin.selectRatioBasedDhcpServer, RoundRobin.getHash, if_neg h] at hsel
    exact rr_selectServerFromList_mem hsel

/-- C3 witness: with `rcRatio = 100` every client hashes below the ratio, so a
concrete sticky balancer selects from its RC pool, and the concrete
round-robin balancer returns a member of its RC pool. -/
theorem claim3_ratio_split_witness :
    Modulo.selectRatioBasedDhcpServer
        { stable := [], rc := [{ Port := 7 }], rcRatio := 100 } { ClientID := [0] } =
      Modulo.selectServerFromList [{ Port := 7 }] { ClientID := [0] } ∧
    ({ Port := 9 } : DHCPServer) ∈
      ({ stable := [], rc := [{ Port := 9 }], rcRatio := 100 } : RoundRobin).rc := by
  refine ⟨?_, ?_⟩
  · exact ((claim3_ratio_split { stable := [], rc := [{ Port := 7 }], rcRatio := 100 }
      {} { ClientID := [0] }).1 (by decide)).1
  · exact (claim3_ratio_split {}
      { stable := [], rc := [{ Port := 9 }], rcRatio := 100 } { ClientID := [0] }).2.2.1
      (by decide) { Port := 9 }
      { stable := [], rc := [{ Port := 9 }], rcRatio := 100, iterStable := 0,
        iterRC := 1, iterList := 1 } (by decide)

/-- With a 16-byte peer the peer-address region of the relay-forward buffer
is exactly the peer, and `encBytes` splits as a 34-byte header followed by the
RelayMessage option header and the payload. -/
theorem encBytes_split (hop : Nat) {peer : List Nat} (p : List Nat)
    (hpeer : peer.length = 16) :
    Packet6.encBytes hop peer p =
      (12 :: hop :: (List.replicate 16 0 ++ peer)) ++
        0 :: 9 :: (p.length % 65536) / 256 :: p.length % 256 :: p := by
  unfold Packet6.encBytes
  rw [List.take_of_length_le (le_of_eq hpeer), hpeer]
  simp

/-- Length of the 34-byte relay-forward header. -/
theorem encHeader_length (hop : Nat) {peer : List Nat} (hpeer : peer.length = 16) :
    (12 :: hop :: (List.replicate 16 0 ++ peer)).length = 34 := by
  simp [hpeer]

/-- Unwinding the buffer built by `encBytes` recovers the payload and the
peer, for non-empty payloads of option-representable length and 16-byte
peers. -/
theorem unwind_encBytes (hop : Nat) {peer p : List Nat} (hpeer : peer.length = 16)
    (hne : p ≠ []) (hlen : p.length ≤ 65535) :
    Packet6.unwind (Packet6.encBytes hop peer p) = .ok (p, peer) := by
  have hppos : 0 < p.length := List.length_pos.mpr hne
  have hq : Packet6.encBytes hop peer p =
      (12 :: hop :: (List.replicate 16 0 ++ peer)) ++
        0 :: 9 :: (p.length % 65536) / 256 :: p.length % 256 :: p :=
    encBytes_split hop p hpeer
  have hhdrlen : (12 :: hop :: (List.replicate 16 0 ++ peer)).length = 34 :=
    encHeader_length hop hpeer
  have hqlen : (Packet6.encBytes hop peer p).length = 38 + p.length := by
    rw [hq]
    simp only [List.length_append, List.length_cons, hhdrlen]
    omega
  have hhead : (Packet6.encBytes hop peer p).head? = some 12 := by
    rw [hq]; rfl
  -- the payload length survives the uint16 round trip
  have hmod : p.length % 65536 = p.length := Nat.mod_eq_of_lt (by omega)
  have hlenbytes : 256 * ((p.length % 65536) / 256) + p.length % 256 = p.length := by
    rw [hmod]; exact Nat.div_add_mod p.length 256
  -- peerAddr returns the peer
  have hd18 : (Packet6.encBytes hop peer p).drop 18 =
      peer ++ 0 :: 9 :: (p.length % 65536) / 256 :: p.length % 256 :: p := by
    rw [hq]
    show (List.replicate 16 (0 : Nat) ++ peer ++ _).drop 16 = _
    rw [List.append_assoc, List.drop_left' (by simp)]
  have hpa : Packet6.peerAddr (Packet6.encBytes hop peer p) = .ok peer := by
    unfold Packet6.peerAddr
    rw [hhead]
    simp only []
    rw [if_pos (Or.inl trivial), if_pos (by omega), hd18, List.take_left' hpeer]
  -- the option scan finds the RelayMessage option at index 34
  have hget34 : (Packet6.encBytes hop peer p)[34]? = some 0 := by
    rw [hq, List.getElem?_append_right (by omega), hhdrlen]; norm_num
  have hget35 : (Packet6.encBytes hop peer p)[35]? = some 9 := by
    rw [hq, List.getElem?_append_right (by omega), hhdrlen]; norm_num
  have hget36 : (Packet6.encBytes hop peer p)[36]? = some ((p.length % 65536) / 256) := by
    rw [hq, List.getElem?_append_right (by omega), hhdrlen]; norm_num
  have hget37 : (Packet6.encBytes hop peer p)[37]? = some (p.length % 256) := by
    rw [hq, List.getElem?_append_right (by omega), hhdrlen]; norm_num
  have hr1 : readU16 (Packet6.encBytes hop peer p) 34 = some 9 := by
    unfold readU16
    rw [show (34 : Nat) + 1 = 35 from rfl, hget34, hget35]
  have hr2 : readU16 (Packet6.encBytes hop peer p) (34 + 2) = some p.length := by
    unfold readU16
    rw [show (34 : Nat) + 2 = 36 from rfl, show (36 : Nat) + 1 = 37 from rfl,
      hget36, hget37]
    simp only [Option.some.injEq]
    exact hlenbytes
  have hd38 : (Packet6.encBytes hop peer p).drop (34 + 4) = p := by
    rw [hq, show (34 : Nat) + 4 =
      (12 :: hop :: (List.replicate 16 0 ++ peer)).length + 4 from by rw [hhdrlen],
      List.drop_append]
    rfl
  have hopt : Packet6.getOption (Packet6.encBytes hop peer p) 9 = .ok p := by
    unfold Packet6.getOption
    rw [if_neg (by omega), if_pos (Or.inl hhead)]
    rw [Packet6.getOptionLoop]
    rw [dif_pos (by omega), hr1, hr2]
    simp only []
    rw [if_pos trivial]
    rw [if_neg (by omega), if_neg (by omega), hd38, List.take_length]
  unfold Packet6.unwind
  rw [hpa, hopt]

/-- `Encapsulate` builds `encBytes` with the hop byte determined by the rule
of the source — `inner hops + 1` (as a byte) for a relay-typed packet, `0`
otherwise — whenever the packet is not a 1-byte relay message (on which the
source panics). -/
theorem encapsulate_eq_encBytes (p peer : List Nat)
    (hone : ¬ (p.length = 1 ∧ (p.head? = some 12 ∨ p.head? = some 13))) :
    ∃ hop, Packet6.encapsulate p peer = some (Packet6.encBytes hop peer p) ∧
      ((p.head? = some 12 ∨ p.head? = some 13) →
        ∀ b, p[1]? = some b → hop = (b + 1) % 256) ∧
      (¬ (p.head? = some 12 ∨ p.head? = some 13) → hop = 0) := by
  by_cases hrel : p.head? = some 12 ∨ p.head? = some 13
  · have hnil : p ≠ [] := by
      intro e
      rw [e] at hrel
      simp at hrel
    have hlen2 : 2 ≤ p.length := by
      have h1 : 0 < p.length := List.length_pos.mpr hnil
      have h2 : p.length ≠ 1 := fun e => hone ⟨e, hrel⟩
      omega
    have hb : p[1]? = some p[1] := List.getElem?_eq_getElem (by omega)
    refine ⟨(p[1] + 1) % 256, ?_, ?_, fun hn => absurd hrel hn⟩
    · unfold Packet6.encapsulate Packet6.hops
      rcases hrel with h12 | h13
      · rw [h12]
        simp only []
        rw [if_pos (Or.inl trivial), hb]
      · rw [h13]
        simp only []
        rw [if_pos (Or.inr trivial), hb]
    · intro _ b hb2
      rw [hb] at hb2
      rw [Option.some.inj hb2]
  · refine ⟨0, ?_, fun h => absurd h hrel, fun _ => rfl⟩
    unfold Packet6.encapsulate Packet6.hops
    cases hp : p.head? with
    | none => rfl
    | some t =>
      have ht : ¬ (t = 12 ∨ t = 13) := by
        intro h
        apply hrel
        rcases h with h | h
        · exact Or.inl (by rw [hp, h])
        · exact Or.inr (by rw [hp, h])
      simp only []
      rw [if_neg ht]

/-- The observable fields of the relay-forward buffer `encBytes` for a
16-byte peer: type byte 12, the hop byte at index 1, an all-zero
link-address at bytes 2..17, the peer at bytes 18..33, the RelayMessage
option code 9 at bytes 34..35, and the payload from byte 38 on. -/
theorem encBytes_fields (hop : Nat) {peer : List Nat} (p : List Nat)
    (hpeer : peer.length = 16) :
    (Packet6.encBytes hop peer p).head? = some 12 ∧
    (Packet6.encBytes hop peer p)[1]? = some hop ∧
    ((Packet6.encBytes hop peer p).drop 2).take 16 = List.replicate 16 0 ∧
    ((Packet6.encBytes hop peer p).drop 18).take 16 = peer ∧
    readU16 (Packet6.encBytes hop peer p) 34 = some 9 ∧
    (Packet6.encBytes hop peer p).drop 38 = p := by
  have hq : Packet6.encBytes hop peer p =
      (12 :: hop :: (List.replicate 16 0 ++ peer)) ++
        0 :: 9 :: (p.length % 65536) / 256 :: p.length % 256 :: p :=
    encBytes_split hop p hpeer
  have hhdrlen : (12 :: hop :: (List.replicate 16 0 ++ peer)).length = 34 :=
    encHeader_length hop hpeer
  refine ⟨by rw [hq]; rfl, by rw [hq]; rfl, ?_, ?_, ?_, ?_⟩
  · rw [hq]
    show (List.replicate 16 (0 : Nat) ++ peer ++ _).take 16 = _
    rw [List.append_assoc, List.take_left' (by simp)]
  · rw [hq]
    show ((List.replicate 16 (0 : Nat) ++ peer ++ _).drop 16).take 16 = _
    rw [List.append_assoc, List.drop_left' (by simp), List.take_left' hpeer]
  · have hget34 : (Packet6.encBytes hop peer p)[34]? = some 0 := by
      rw [hq, List.getElem?_append_right (by omega), hhdrlen]
      norm_num
    have hget35 : (Packet6.encBytes hop peer p)[35]? = some 9 := by
      rw [hq, List.getElem?_append_right (by omega), hhdrlen]
      norm_num
    unfold readU16
    rw [show (34 : Nat) + 1 = 35 from rfl, hget34, hget35]
  · rw [hq, show (38 : Nat) =
      (12 :: hop :: (List.replicate 16 0 ++ peer)).length + 4 from by rw [hhdrlen],
      List.drop_append]
    rfl

/-- C2 counterexample: the claim quantifies over every non-empty packet, but
on the one-byte relay-forward packet `[12]` the read of `p[1]` inside
`Packet6.Hops` is out of range, so `Encapsulate` panics (modelled as `none`)
and no round trip takes place. -/
theorem claim2_roundtrip_counterexample :
    Packet6.encapsulate [12] (List.replicate 16 1) = none := by
  decide

/-- C2 (amended): for every non-empty packet p of at most 65535 bytes that is
not a single-byte relay message, and every 16-byte peer IP,
`Unwind (Encapsulate p peer)` returns exactly the original bytes p and the
original peer IP. -/
theorem claim2_encapsulate_unwind_roundtrip (p peer : List Nat) (hne : p ≠ [])
    (hlen : p.length ≤ 65535)
    (hone : ¬ (p.length = 1 ∧ (p.head? = some 12 ∨ p.head? = some 13)))
    (hpeer : peer.length = 16) :
    ∃ q, Packet6.encapsulate p peer = some q ∧ Packet6.unwind q = .ok (p, peer) := by
  obtain ⟨hop, he, -, -⟩ := encapsulate_eq_encBytes p peer hone
  exact ⟨_, he, unwind_encBytes hop hpeer hne hlen⟩

/-- C2 witness: the round trip at the concrete packet `[1, 2, 3, 4]` and a
concrete 16-byte peer. -/
theorem claim2_encapsulate_unwind_roundtrip_witness :
    ∃ q, Packet6.encapsulate [1, 2, 3, 4] (List.replicate 16 5) = some q ∧
      Packet6.unwind q = .ok ([1, 2, 3, 4], List.replicate 16 5) :=
  claim2_encapsulate_unwind_roundtrip [1, 2, 3, 4] (List.replicate 16 5)
    (by decide) (by decide) (by decide) (by decide)

/-- C5 counterexample: the claim quantifies over every packet, but on the
one-byte relay-reply packet `[13]` the read of `p[1]` inside `Packet6.Hops`
is out of range, so `Encapsulate` panics (modelled as `none`) and produces no
message at all. -/
theorem claim5_encapsulate_fields_counterexample :
    Packet6.encapsulate [13] (List.replicate 16 2) = none := by
  decide

/-- C5 (amended): for every packet p that is not a single-byte relay message
and every 16-byte peer IP, `Encapsulate p peer` produces a message whose type
byte is 12 (relay-forward), whose hop byte is p's hop count plus one (as a
byte) when p is relay-typed and 0 otherwise, whose link-address (bytes
2..17) is all zeros, whose peer-address (bytes 18..33) is the ingress source
IP, whose option header at 34..35 carries the RelayMessage code 9, and whose
bytes from offset 38 are exactly the received bytes p. -/
theorem claim5_encapsulate_fields (p peer : List Nat) (hpeer : peer.length = 16)
    (hone : ¬ (p.length = 1 ∧ (p.head? = some 12 ∨ p.head? = some 13))) :
    ∃ q, Packet6.encapsulate p peer = some q ∧
      q.head? = some 12 ∧
      ((p.head? = some 12 ∨ p.head? = some 13) →
        ∀ b, p[1]? = some b → q[1]? = some ((b + 1) % 256)) ∧
      (¬ (p.head? = some 12 ∨ p.head? = some 13) → q[1]? = some 0) ∧
      (q.drop 2).take 16 = List.replicate 16 0 ∧
      (q.drop 18).take 16 = peer ∧
      readU16 q 34 = some 9 ∧
      q.drop 38 = p := by
  obtain ⟨hop, he, hrel, hnorel⟩ := encapsulate_eq_encBytes p peer hone
  obtain ⟨f1, f2, f3, f4, f5, f6⟩ := encBytes_fields hop p hpeer
  refine ⟨_, he, f1, ?_, ?_, f3, f4, f5, f6⟩
  · intro h b hb
    rw [f2, hrel h b hb]
  · intro h
    rw [f2, hnorel h]

/-- C5 witness: the construction at the concrete non-relay packet
`[1, 0, 0, 0]` and a concrete 16-byte peer. -/
theorem claim5_encapsulate_fields_witness :
    ∃ q, Packet6.encapsulate [1, 0, 0, 0] (List.replicate 16 7) = some q ∧
      q.head? = some 12 ∧
      ((([1, 0, 0, 0] : List Nat).head? = some 12 ∨
          ([1, 0, 0, 0] : List Nat).head? = some 13) →
        ∀ b, ([1, 0, 0, 0] : List Nat)[1]? = some b → q[1]? = some ((b + 1) % 256)) ∧
      (¬ (([1, 0, 0, 0] : List Nat).head? = some 12 ∨
          ([1, 0, 0, 0] : List Nat).head? = some 13) → q[1]? = some 0) ∧
      (q.drop 2).take 16 = List.replicate 16 0 ∧
      (q.drop 18).take 16 = List.replicate 16 7 ∧
      readU16 q 34 = some 9 ∧
      q.drop 38 = [1, 0, 0, 0] :=
  claim5_encapsulate_fields [1, 0, 0, 0] (List.replicate 16 7) (by decide) (by decide)

/-- The option-scan loop of `getOption` never reads or slices out of bounds
(no `crash`), and every slice it returns lies entirely within the packet.
Strong induction on the remaining length `p.length - index`. -/
theorem getOptionLoop_inbounds (p : List Nat) (opt : Nat) :
    ∀ (n index : Nat), p.length - index ≤ n →
      match Packet6.getOptionLoop p opt index with
      | .ok s => ∃ i, i + s.length ≤ p.length ∧ s = (p.drop i).take s.length
      | .err _ => True
      | .crash => False := by
  intro n
  induction n with
  | zero =>
    intro index h
    rw [Packet6.getOptionLoop, dif_neg (by omega)]
    trivial
  | succ n ih =>
    intro index h
    rw [Packet6.getOptionLoop]
    by_cases hguard : index + 4 < p.length
    · rw [dif_pos hguard]
      obtain ⟨a, e0⟩ : ∃ x, p[index]? = some x :=
        ⟨_, List.getElem?_eq_getElem (by omega)⟩
      obtain ⟨b, e1⟩ : ∃ x, p[index + 1]? = some x :=
        ⟨_, List.getElem?_eq_getElem (by omega)⟩
      obtain ⟨c, e2⟩ : ∃ x, p[index + 2]? = some x :=
        ⟨_, List.getElem?_eq_getElem (by omega)⟩
      obtain ⟨d, e3⟩ : ∃ x, p[index + 2 + 1]? = some x :=
        ⟨_, List.getElem?_eq_getElem (by omega)⟩
      unfold readU16
      rw [e0, e1, e2, e3]
      simp only []
      by_cases hty : 256 * a + b = opt
      · rw [if_pos hty, if_neg (show ¬ p.length ≤ index + 4 by omega)]
        by_cases hend : p.length < index + 4 + (256 * c + d)
        · rw [if_pos hend]
          trivial
        · rw [if_neg hend]
          simp only []
          have hslen : ((p.drop (index + 4)).take (256 * c + d)).length = 256 * c + d := by
            rw [List.length_take, List.length_drop, inf_eq_min, Nat.min_def]
            split <;> omega
          exact ⟨index + 4, by rw [hslen]; omega, by rw [hslen]⟩
      · rw [if_neg hty]
        exact ih (index + 4 + (256 * c + d)) (by omega)
    · rw [dif_neg hguard]
      trivial

/-- C10: for every byte string p and option code, `Packet6.getOption` either
returns a slice lying entirely within p (it is `p[i : i + len]` for some
in-range i and len) or returns an error; it never performs an out-of-range
read or slice (the `crash` outcome, which models a Go panic, is
impossible). -/
theorem claim10_getOption_inbounds (p : List Nat) (option : Nat) :
    match Packet6.getOption p option with
    | .ok s => ∃ i, i + s.length ≤ p.length ∧ s = (p.drop i).take s.length
    | .err _ => True
    | .crash => False := by
  unfold Packet6.getOption
  by_cases h4 : p.length < 4
  · rw [if_pos h4]
    trivial
  · rw [if_neg h4]
    exact getOptionLoop_inbounds p option p.length _ (by omega)

/-- C4: `Throttle.OK` follows the decision procedure of the spec, for every
limiter model.  (a) With `MaxRatePerItem ≤ 0`, `NewThrottle` yields the
dummy throttle, which returns ok for every key and keeps no state.  (b) For
a key absent from the LRU whose global admission check fails, `OK` returns
denied with the admission-exceeded reason and the successor state keeps the
LRU unchanged — the key is not inserted.  (c) For a key present in the LRU,
`OK` returns that key's bucket allow result (with the per-key reason exactly
when denied). -/
theorem claim4_throttle_ok (M : LimiterModel) (key : String) :
    (∀ Capacity CacheRate MaxRatePerItem : Int, MaxRatePerItem ≤ 0 →
      NewThrottle M Capacity CacheRate MaxRatePerItem = .ok .dummy ∧
      Throttle.OK (M := M) .dummy key = ((true, none), .dummy)) ∧
    (∀ c : throttleImpl M, lruGet c.lru key = none →
      (M.allow c.cacheLimiter).1 = false →
      Throttle.OK (.impl c) key =
        ((false, some admissionExceededMsg),
          .impl { c with cacheLimiter := (M.allow c.cacheLimiter).2 })) ∧
    (∀ (c : throttleImpl M) (lim : M.L) (rest : List (String × M.L)),
      lruGet c.lru key = some (lim, rest) →
      (Throttle.OK (.impl c) key).1 =
        ((M.allow lim).1, if (M.allow lim).1 then none else some ratePerKeyMsg)) := by
  refine ⟨fun Capacity CacheRate MaxRatePerItem hmax => ⟨?_, rfl⟩,
    fun c hmiss hadm => ?_, fun c lim rest hhit => ?_⟩
  · unfold NewThrottle
    rw [if_pos hmax]
  · simp only [Throttle.OK, hmiss]
    rw [if_neg (by rw [hadm]; simp)]
  · simp only [Throttle.OK, hhit]
    by_cases hb : (M.allow lim).1 <;> simp [hb]

/-- C4 witness: with the concrete token-count limiter model, `NewThrottle`
with rate 0 yields the dummy throttle; on the concrete state whose admission
limiter is exhausted, an absent key is denied with the admission reason; and
the present key `"k"` with an exhausted bucket is denied. -/
theorem claim4_throttle_ok_witness :
    NewThrottle natLimiterModel 1 3 0 = .ok .dummy ∧
    (Throttle.OK (.impl throttleWitnessState) "x").1 = (false, some admissionExceededMsg) ∧
    (Throttle.OK (.impl throttleWitnessState) "k").1.1 = false := by
  refine ⟨((claim4_throttle_ok natLimiterModel "x").1 1 3 0 (by decide)).1, ?_, ?_⟩
  · have h := (claim4_throttle_ok natLimiterModel "x").2.1 throttleWitnessState
      (by decide) (by decide)
    exact congrArg Prod.fst h
  · have h := (claim4_throttle_ok natLimiterModel "k").2.2 throttleWitnessState 0 []
      (by decide)
    exact (congrArg Prod.fst h).trans (by decide)

/-- C6: when the override map has an entry for the message's MAC with a
non-empty expiration, and that expiration either fails to parse or lies
before the current time, `handleOverride` returns no server and no error —
the entry is treated as a miss and selection falls through to the
balancer. -/
theorem claim6_override_expired (parseTime : String → Option Int) (now : Int)
    (parseIP : String → Option (List Nat)) (config : Config)
    (message : DHCPMessage) (ovr : Override)
    (hfound : config.Overrides.lookup (FormatID message.Mac) = some ovr)
    (hexp : ovr.Expiration ≠ "")
    (hmiss : parseTime ovr.Expiration = none ∨
      ∃ t, parseTime ovr.Expiration = some t ∧ now > t) :
    handleOverride parseTime now parseIP config message = .ok none := by
  unfold handleOverride
  rw [hfound]
  simp only []
  rw [if_pos hexp]
  rcases hmiss with hnone | ⟨t, ht, hgt⟩
  · rw [hnone]
  · rw [ht]
    simp only []
    rw [if_pos hgt]

/-- C6 witness: the spec's literal example — override
`{mac aa:bb:cc:dd:ee:ff, host 10.0.0.1, expiration 2000/01/01 00:00 +0000}`
is expired at any later `now`, so the engine reports a miss. -/
theorem claim6_override_expired_witness :
    handleOverride parseTimeWitness 1789000000 (fun _ => none) overrideWitnessConfig
      { Mac := [0xaa, 0xbb, 0xcc, 0xdd, 0xee, 0xff] } = .ok none :=
  claim6_override_expired parseTimeWitness 1789000000 (fun _ => none)
    overrideWitnessConfig { Mac := [0xaa, 0xbb, 0xcc, 0xdd, 0xee, 0xff] }
    { Host := "10.0.0.1", Expiration := "2000/01/01 00:00 +0000" }
    (by decide) (by decide)
    (Or.inr ⟨946684800, by decide, by decide⟩)

/-- When `lastIndexOf` finds nothing the character does not occur. -/
theorem lastIndexOf_eq_none {l : List Char} {c : Char}
    (h : lastIndexOf l c = none) : c ∉ l := by
  induction l with
  | nil => simp
  | cons x xs ih =>
    unfold lastIndexOf at h
    match hli : lastIndexOf xs c with
    | some i => rw [hli] at h; exact absurd h (by simp)
    | none =>
      rw [hli] at h
      by_cases hx : x = c
      · rw [if_pos hx] at h
        exact absurd h (by simp)
      · rw [if_neg hx] at h
        intro hmem
        rcases List.mem_cons.mp hmem with he | he
        · exact hx he.symm
        · exact ih hli he

/-- When `lastIndexOf` returns i, the list splits at i around the character
and the character does not occur after i. -/
theorem lastIndexOf_eq_some {l : List Char} {c : Char} {i : Nat}
    (h : lastIndexOf l c = some i) :
    l = l.take i ++ c :: l.drop (i + 1) ∧ c ∉ l.drop (i + 1) := by
  induction l generalizing i with
  | nil => exact absurd h (by simp [lastIndexOf])
  | cons x xs ih =>
    unfold lastIndexOf at h
    match hli : lastIndexOf xs c with
    | some j =>
      rw [hli] at h
      obtain ⟨hsplit, hnot⟩ := ih hli
      have hij : i = j + 1 := (Option.some.inj h).symm
      subst hij
      constructor
      · show x :: xs = x :: xs.take j ++ c :: xs.drop (j + 1)
        rw [List.cons_append, ← hsplit]
      · exact hnot
    | none =>
      rw [hli] at h
      by_cases hx : x = c
      · rw [if_pos hx] at h
        have hi0 : i = 0 := (Option.some.inj h).symm
        subst hi0
        refine ⟨?_, ?_⟩
        · show x :: xs = [] ++ c :: xs.drop 0
          rw [hx]
          rfl
        · show c ∉ xs.drop 0
          rw [List.drop_zero]
          exact lastIndexOf_eq_none hli
      · rw [if_neg hx] at h
        exact absurd h (by simp)

/-- C7: for every vendor class `"Juniper-" ++ rest`, `parseV4VendorClass`
succeeds with vendor name `Juniper`; when rest contains a `-`, the text
after the last `-` is the serial and the text before it the model; when
rest contains no `-`, the whole remainder is the model and the serial is
taken from the Host Name option when present (and is left untouched when
absent). -/
theorem claim7_juniper_vendor_class (vd : VendorData) (rest : List Char)
    (host : Option (List Char)) (vivc : Option (List VIVCIdentifier))
    (packet : DHCPv4Packet)
    (hpacket : packet = { ClassIdentifier := some ("Juniper-".data ++ rest), HostName := host, VIVCIdentifiers := vivc }) :
    (parseV4VendorClass vd packet).2 = none ∧
    (parseV4VendorClass vd packet).1.VendorName = "Juniper".data ∧
    ('-' ∈ rest → ∃ m s, rest = m ++ '-' :: s ∧ '-' ∉ s ∧
      (parseV4VendorClass vd packet).1.Model = m ∧
      (parseV4VendorClass vd packet).1.Serial = s) ∧
    ('-' ∉ rest →
      (parseV4VendorClass vd packet).1.Model = rest ∧
      (parseV4VendorClass vd packet).1.Serial =
        (match host with | some h => h | none => vd.Serial)) := by
  subst hpacket
  have hA : ¬ (("Juniper-".data ++ rest).take 7 = "Arista;".data) := by
    rw [List.take_append_of_le_length (by decide)]
    decide
  have hZ : ¬ (("Juniper-".data ++ rest).take 11 = "ZPESystems:".data) := by
    intro h
    have h2 := congrArg (fun l => List.take 8 l) h
    simp only [List.take_take] at h2
    rw [show min 8 11 = 8 from rfl, List.take_left' (by decide)] at h2
    exact absurd h2 (by decide)
  have hJ : ("Juniper-".data ++ rest).take 8 = "Juniper-".data :=
    List.take_left' (by decide)
  have hdrop : ("Juniper-".data ++ rest).drop 8 = rest :=
    List.drop_left' (by decide)
  unfold parseV4VendorClass
  simp only []
  rw [if_neg hA, if_neg hZ, if_pos hJ, hdrop]
  match hli : lastIndexOf rest '-' with
  | none =>
    have hnot : '-' ∉ rest := lastIndexOf_eq_none hli
    cases host with
    | none =>
      exact ⟨rfl, rfl, fun hmem => absurd hmem hnot, fun _ => ⟨rfl, rfl⟩⟩
    | some h =>
      exact ⟨rfl, rfl, fun hmem => absurd hmem hnot, fun _ => ⟨rfl, rfl⟩⟩
  | some i =>
    obtain ⟨hsplit, hafter⟩ := lastIndexOf_eq_some hli
    have hmem : '-' ∈ rest := by
      rw [hsplit]
      exact List.mem_append_right _ (List.mem_cons_self _ _)
    refine ⟨rfl, rfl, fun _ => ⟨rest.take i, rest.drop (i + 1), hsplit, hafter, rfl, rfl⟩,
      fun hno => absurd hmem hno⟩

/-- C7 witness: the spec's literal example `Juniper-qfx10002-36q-DN817`
parses to model `qfx10002-36q` and serial `DN817`. -/
theorem claim7_juniper_vendor_class_witness :
    ∃ m s, "qfx10002-36q-DN817".data = m ++ '-' :: s ∧ '-' ∉ s ∧
      (parseV4VendorClass {} { ClassIdentifier := some ("Juniper-".data ++ "qfx10002-36q-DN817".data), HostName := none, VIVCIdentifiers := none }).1.Model = m ∧
      (parseV4VendorClass {} { ClassIdentifier := some ("Juniper-".data ++ "qfx10002-36q-DN817".data), HostName := none, VIVCIdentifiers := none }).1.Serial = s :=
  (claim7_juniper_vendor_class {} "qfx10002-36q-DN817".data none none _ rfl).2.2.1
    (by decide)

/-- The field loop of `parseV4VIVC` never changes the vendor name (it only
assigns `Serial` and `Model`). -/
theorem vivcFields_vendorName (fs : List (List Char)) :
    ∀ vd : VendorData, (vivcFields vd fs).1.VendorName = vd.VendorName := by
  induction fs with
  | nil => intro vd; rfl
  | cons f rest ih =>
    intro vd
    unfold vivcFields
    match hc : cutChar f ':' with
    | none => rfl
    | some (k, v) =>
      simp only []
      by_cases hsn : k = "SN".data
      · rw [if_pos hsn]
        exact ih _
      · rw [if_neg hsn]
        by_cases hpid : k = "PID".data
        · rw [if_pos hpid]
          exact ih _
        · rw [if_neg hpid]
          exact ih _

/-- Whenever the identifier loop of `parseV4VIVC` reports an error, the
returned VendorData has vendor name `Cisco Systems` (set before the
malformed field was reached). -/
theorem vivcIdentifiers_err_vendorName (ids : List VIVCIdentifier) :
    ∀ (vd : VendorData) (e : String), (vivcIdentifiers vd ids).2 = some e →
      (vivcIdentifiers vd ids).1.VendorName = "Cisco Systems".data := by
  induction ids with
  | nil =>
    intro vd e he
    exact absurd he (by simp [vivcIdentifiers])
  | cons ident rest ih =>
    intro vd e he
    unfold vivcIdentifiers at he ⊢
    by_cases h9 : ident.EntID = 9
    · rw [if_pos h9] at he ⊢
      match hf : vivcFields { vd with VendorName := "Cisco Systems".data }
          (splitOnChar ident.Data ';') with
      | (vd3, some e2) =>
        simp only [] at he ⊢
        have hvn := vivcFields_vendorName (splitOnChar ident.Data ';')
          { vd with VendorName := "Cisco Systems".data }
        rw [hf] at hvn
        exact hvn
      | (vd3, none) =>
        rw [hf] at he
        simp only [] at he ⊢
        exact ih vd3 e he
    · rw [if_neg h9] at he ⊢
      exact ih vd e he

/-- C8 counterexample: on a packet whose only vendor option is a VIVC entry
with the Cisco enterprise number and the colon-free data `"X"`, parsing
fails with the malformed-option error, yet `VendorDataV4` returns a
VendorData whose vendor name is `Cisco Systems` — not empty as the claim
states. -/
theorem claim8_vendordata_counterexample :
    (parseV4VIVC {} { ClassIdentifier := none, HostName := none, VIVCIdentifiers := some [{ EntID := 9, Data := "X".data }] }).2 = some "malformed vendor option" ∧
    VendorDataV4 { ClassIdentifier := none, HostName := none, VIVCIdentifiers := some [{ EntID := 9, Data := "X".data }] } =
      { VendorName := "Cisco Systems".data, Model := [], Serial := [] } ∧
    VendorDataV4 { ClassIdentifier := none, HostName := none, VIVCIdentifiers := some [{ EntID := 9, Data := "X".data }] } ≠ ({} : VendorData) := by
  decide

/-- C8 (amended): vendor-option parse failures are non-fatal — `VendorDataV4`
always returns a VendorData — but the returned data is not always empty: a
vendor-class (option 60) failure leaves the VendorData exactly as it was
(so empty when nothing was set before), while a VIVC (option 124) failure
leaves the fields assigned before the malformed field, always including
vendor name `Cisco Systems`. -/
theorem claim8_vendor_failures_nonfatal (vd : VendorData) (packet : DHCPv4Packet) :
    (∀ e, (parseV4VendorClass vd packet).2 = some e →
      (parseV4VendorClass vd packet).1 = vd) ∧
    (∀ e, (parseV4VIVC vd packet).2 = some e →
      (parseV4VIVC vd packet).1.VendorName = "Cisco Systems".data) := by
  constructor
  · intro e he
    unfold parseV4VendorClass at he ⊢
    match hci : packet.ClassIdentifier with
    | none => rfl
    | some vc =>
      rw [hci] at he
      simp only [] at he ⊢
      split_ifs at he ⊢ with hA hlenA hZ hlenZ hJ
      all_goals try rfl
      all_goals try simp at he
      all_goals
        rcases hli : lastIndexOf (vc.drop 8) '-' with _ | i
        · rcases hh : packet.HostName with _ | h
          · simp [hli, hh] at he
          · simp [hli, hh] at he
        · simp [hli] at he
  · intro e he
    unfold parseV4VIVC at he ⊢
    match hv : packet.VIVCIdentifiers with
    | none =>
      rw [hv] at he
      exact absurd he (by simp)
    | some ids =>
      rw [hv] at he
      simp only [] at he ⊢
      exact vivcIdentifiers_err_vendorName ids vd e he

/-- C8 witness for the amended claim: a malformed Arista vendor class leaves
the VendorData empty, and the malformed VIVC data `"X"` still yields vendor
name `Cisco Systems`. -/
theorem claim8_vendor_failures_nonfatal_witness :
    (parseV4VendorClass {} { ClassIdentifier := some "Arista;x".data, HostName := none, VIVCIdentifiers := none }).1 = ({} : VendorData) ∧
    (parseV4VIVC {} { ClassIdentifier := none, HostName := none, VIVCIdentifiers := some [{ EntID := 9, Data := "X".data }] }).1.VendorName = "Cisco Systems".data := by
  constructor
  · exact (claim8_vendor_failures_nonfatal {}
      { ClassIdentifier := some "Arista;x".data, HostName := none, VIVCIdentifiers := none }).1
      "malformed vendor option" (by decide)
  · exact (claim8_vendor_failures_nonfatal {}
      { ClassIdentifier := none, HostName := none, VIVCIdentifiers := some [{ EntID := 9, Data := "X".data }] }).2
      "malformed vendor option" (by decide)

/-- C9 (documents the code bug): in version-6 mode a host-list line without a
`:port` suffix gets port 67, not 547 — `GetServersFromTier` sets `port = 67`
whenever the line has a single token, with no version check.  Evaluated at
the concrete failing input: a v6 file with the single line
`dhcp6.example.com`, a resolver that maps it to `2001:db8::1`. -/
theorem claim9_default_port_v6 :
    GetServersFromTier 6
      (fun s => if s = "2001:db8::1" then some [0x20, 0x01, 0x0d, 0xb8, 0, 0, 0, 0, 0, 0, 0, 0, 0, 0, 0, 1] else none)
      (fun s => if s = "dhcp6.example.com" then some ["2001:db8::1"] else none)
      (fun _ => false) (fun _ => true)
      ["dhcp6.example.com"] =
      [{ Hostname := "dhcp6.example.com",
         Address := some [0x20, 0x01, 0x0d, 0xb8, 0, 0, 0, 0, 0, 0, 0, 0, 0, 0, 0, 1],
         Port := 67, IsRC := false }] := by
  decide

/-- Sanity check reproducing `Test_Hash` from `lib/modulo_test.go`: the four
known client ids map to servers with ports 0,1,2,3 under the sticky balancer
with the four test servers as stable pool and ratio 0. -/
theorem fnv_test_vectors :
    (testClientIDs.map (fun cid =>
        Modulo.selectRatioBasedDhcpServer { stable := testServers } { ClientID := cid })) =
      [.ok { Port := 0 }, .ok { Port := 1 }, .ok { Port := 2 }, .ok { Port := 3 }] := by
  decide

end Dhcplb
